import Mathlib

set_option maxRecDepth 100000

/-!
Verification of the UKGC regulatory-document search and cross-reference
component.  The definitions below are a shallow embedding of the Python
sources `streamlit_app.py`, `Server/ukgc_regulatory_mcp_server.py` and
`cross_framework_index.py`: JSON values become an inductive type,
dictionary probing becomes association-list lookup, and the file system
and JSON parser are abstracted as explicit inputs (a file is given
together with its parse outcome).
-/

/-- JSON values as loaded by `json.load`.  Object fields keep insertion
order, matching Python dicts. -/
inductive Json where
  | null : Json
  | bool (b : Bool) : Json
  | num (n : Int) : Json
  | str (s : String) : Json
  | arr (xs : List Json) : Json
  | obj (fields : List (String × Json)) : Json
deriving Repr

/-- First-match association-list lookup, the model of Python dict access
(dicts cannot hold duplicate keys, so first-match is exact). -/
def assocLookup : List (String × Json) → String → Option Json
  | [], _ => none
  | (k, v) :: rest, key => if k = key then some v else assocLookup rest key

/-- Python `d[k]` / `k in d` membership for JSON objects; a non-object
has no fields. -/
def Json.getField : Json → String → Option Json
  | Json.obj fs, k => assocLookup fs k
  | _, _ => none

/-- Python `d.get(k, default)`. -/
def Json.getD (j : Json) (k : String) (d : Json) : Json :=
  (j.getField k).getD d

/-- Python truthiness of a JSON value. -/
def Json.truthy : Json → Bool
  | Json.null => false
  | Json.bool b => b
  | Json.num n => n != 0
  | Json.str s => !s.isEmpty
  | Json.arr xs => !xs.isEmpty
  | Json.obj fs => !fs.isEmpty

/-- Iterating a JSON value as a Python list: arrays yield their
elements, anything else contributes nothing. -/
def jarr : Json → List Json
  | Json.arr xs => xs
  | _ => []

/-- ASCII lower-casing of a char list, the model of Python `str.lower`
on the ASCII documents handled here. -/
def pyLower (s : List Char) : List Char :=
  s.map Char.toLower

/-- Python `str.count` for a non-empty pattern: non-overlapping
occurrences scanned left to right.  After a hit the scan resumes
beyond the matched characters; the second argument counts how many
characters of the current match are still to be skipped. -/
def countOccAux (pat : List Char) : List Char → Nat → Nat
  | [], _ => 0
  | _ :: s, skip + 1 => countOccAux pat s skip
  | c :: s, 0 =>
    if List.isPrefixOf pat (c :: s) then
      1 + countOccAux pat s (pat.length - 1)
    else
      countOccAux pat s 0

/-- Python `str.count` for a non-empty pattern, scanning from the
start. -/
def countOccPos (pat s : List Char) : Nat :=
  countOccAux pat s 0

/-- Python `str.count`: an empty pattern counts `len + 1` occurrences. -/
def pyCount (pat s : List Char) : Nat :=
  if pat.isEmpty then s.length + 1 else countOccPos pat s

/-- A lowercase hexadecimal digit, as printed by the Python `%04x`
format used for unicode escapes. -/
def hexDigit (n : Nat) : Char :=
  if n < 10 then Char.ofNat (48 + n) else Char.ofNat (87 + n)

/-- A `\uXXXX` escape sequence with lowercase hexadecimal digits, as
emitted by `json.dumps` under its default `ensure_ascii=True`. -/
def uEscape (n : Nat) : List Char :=
  ['\\', 'u', hexDigit (n / 4096 % 16), hexDigit (n / 256 % 16),
   hexDigit (n / 16 % 16), hexDigit (n % 16)]

/-- JSON string escaping for one character as performed by `json.dumps`
with its defaults: quote and backslash get a backslash escape, the
other printable ASCII characters (space through tilde) pass through,
the control characters with shorthand escapes use them, and everything
else — every other control character and, under `ensure_ascii=True`,
every non-ASCII character — becomes a `\uXXXX` escape (a surrogate
pair beyond the basic multilingual plane). -/
def escChar (c : Char) : List Char :=
  if c = '"' then ['\\', '"']
  else if c = '\\' then ['\\', '\\']
  else if 32 ≤ c.toNat ∧ c.toNat ≤ 126 then [c]
  else if c = '\x08' then ['\\', 'b']
  else if c = '\x09' then ['\\', 't']
  else if c = '\x0a' then ['\\', 'n']
  else if c = '\x0c' then ['\\', 'f']
  else if c = '\x0d' then ['\\', 'r']
  else if c.toNat ≤ 65535 then uEscape c.toNat
  else uEscape (55296 + (c.toNat - 65536) / 1024) ++
    uEscape (56320 + (c.toNat - 65536) % 1024)

/-- JSON string escaping of a whole string body. -/
def escapeL : List Char → List Char
  | [] => []
  | c :: rest => escChar c ++ escapeL rest

mutual

/-- Model of `json.dumps` with its default separators, producing a char list. -/
def dumpsL : Json → List Char
  | Json.null => "null".data
  | Json.bool true => "true".data
  | Json.bool false => "false".data
  | Json.num n => (toString n).data
  | Json.str s => '"' :: escapeL s.data ++ ['"']
  | Json.arr xs => '[' :: dumpsArrL xs ++ [']']
  | Json.obj fs => '\x7b' :: dumpsObjL fs ++ ['\x7d']

/-- Array elements joined by `", "`. -/
def dumpsArrL : List Json → List Char
  | [] => []
  | [x] => dumpsL x
  | x :: y :: rest => dumpsL x ++ ',' :: ' ' :: dumpsArrL (y :: rest)

/-- Object fields rendered as `"key": value` joined by `", "`. -/
def dumpsObjL : List (String × Json) → List Char
  | [] => []
  | [(k, v)] => '"' :: escapeL k.data ++ '"' :: ':' :: ' ' :: dumpsL v
  | (k, v) :: p :: rest =>
    ('"' :: escapeL k.data ++ '"' :: ':' :: ' ' :: dumpsL v)
      ++ ',' :: ' ' :: dumpsObjL (p :: rest)

end

/-- The single-quote character used by Python `repr`. -/
def sqCh : Char := Char.ofNat 39

mutual

/-- Python `repr` of a parsed JSON value, used by f-string interpolation
when the value is a container. -/
def pyRepr : Json → List Char
  | Json.null => "None".data
  | Json.bool true => "True".data
  | Json.bool false => "False".data
  | Json.num n => (toString n).data
  | Json.str s => sqCh :: s.data ++ [sqCh]
  | Json.arr xs => '[' :: pyReprArr xs ++ [']']
  | Json.obj fs => '\x7b' :: pyReprObj fs ++ ['\x7d']

/-- Python `repr` of list elements, joined by `", "`. -/
def pyReprArr : List Json → List Char
  | [] => []
  | [x] => pyRepr x
  | x :: y :: rest => pyRepr x ++ ',' :: ' ' :: pyReprArr (y :: rest)

/-- Python `repr` of dict items, joined by `", "`. -/
def pyReprObj : List (String × Json) → List Char
  | [] => []
  | [(k, v)] => sqCh :: k.data ++ sqCh :: ':' :: ' ' :: pyRepr v
  | (k, v) :: p :: rest =>
    (sqCh :: k.data ++ sqCh :: ':' :: ' ' :: pyRepr v)
      ++ ',' :: ' ' :: pyReprObj (p :: rest)

end

/-- Python `str()` of a parsed JSON value, the model of f-string
interpolation such as `f"RTS Aim {aim_number}"`. -/
def pyStr : Json → String
  | Json.null => "None"
  | Json.bool true => "True"
  | Json.bool false => "False"
  | Json.num n => toString n
  | Json.str s => s
  | Json.arr xs => String.mk (pyRepr (Json.arr xs))
  | Json.obj fs => String.mk (pyRepr (Json.obj fs))

/-- A loaded document: filename plus parsed JSON content, the dict
with the filename and content keys built by the loaders. -/
structure LoadedDoc where
  filename : String
  content : Json
deriving Repr

/-- The in-memory document store populated by `load_documents`: one
ordered document list per framework plus the named index documents. -/
structure Store where
  lccp : List LoadedDoc
  iso27001 : List LoadedDoc
  rts : List LoadedDoc
  indexes : List (String × Json)
deriving Repr

/-- Model of `extract_document_ids_from_lccp` from `streamlit_app.py`:
walk `sections`, then the `conditions` of each section, and collect
`(condition_id, condition_title)` pairs with the `.get` defaults. -/
def extract_document_ids_from_lccp (lccp_content : Json) : List (Json × Json) :=
  match lccp_content.getField "sections" with
  | some (Json.arr sections) =>
    sections.flatMap (fun sec =>
      match sec.getField "conditions" with
      | some (Json.arr conds) =>
        conds.map (fun c =>
          (c.getD "condition_id" (Json.str "Unknown"),
           c.getD "condition_title" (Json.str "Untitled")))
      | _ => [])
  | _ => []

/-- Model of `extract_document_ids_from_rts` from `streamlit_app.py`: when the
`aim` object is truthy, one `(f"RTS Aim {aim_number}", aim_title)`
pair. -/
def extract_document_ids_from_rts (rts_content : Json) : List (Json × Json) :=
  let aim := rts_content.getD "aim" (Json.obj [])
  if aim.truthy then
    let aim_number := aim.getD "aim_number" (Json.str "Unknown")
    let aim_title := aim.getD "aim_title" (Json.str "Untitled")
    [(Json.str ("RTS Aim " ++ pyStr aim_number), aim_title)]
  else []

/-- One entry of the result list built by `search_documents` in
`streamlit_app.py` (dict keys in insertion order). -/
structure SearchResult where
  framework : String
  filename : String
  title : Json
  id : Json
  content : Json
  relevance : Nat
deriving Repr

/-- Model of `frameworks_to_search = [framework] if framework else [...]`. -/
def frameworksToSearch : Option String → List String
  | some f => [f]
  | none => ["lccp", "iso27001", "rts"]

/-- Looking a framework name up in the document store
(`fw not in st.session_state.documents` skips unknown names). -/
def storeGet (st : Store) (fw : String) : Option (List LoadedDoc) :=
  if fw = "lccp" then some st.lccp
  else if fw = "iso27001" then some st.iso27001
  else if fw = "rts" then some st.rts
  else none

/-- The body of the per-document loop of `search_documents` in
`streamlit_app.py`: serialize and lower-case the content, test the
substring match, then build one result per extracted entry (iso27001:
the single control; lccp: every section condition; rts: the aim). -/
def docResults (fw : String) (doc : LoadedDoc) (queryLower : List Char) : List SearchResult :=
  let contentStr := pyLower (dumpsL doc.content)
  if queryLower <:+: contentStr then
    let rel := pyCount queryLower contentStr
    if fw = "iso27001" then
      let control := doc.content.getD "control" (Json.obj [])
      [{ framework := fw, filename := doc.filename,
         title := control.getD "control_title" (Json.str "Untitled"),
         id := control.getD "control_id" (Json.str "Unknown"),
         content := doc.content, relevance := rel }]
    else if fw = "lccp" then
      (extract_document_ids_from_lccp doc.content).map (fun p =>
        { framework := fw, filename := doc.filename,
          title := p.2, id := p.1, content := doc.content, relevance := rel })
    else
      (extract_document_ids_from_rts doc.content).map (fun p =>
        { framework := fw, filename := doc.filename,
          title := p.2, id := p.1, content := doc.content, relevance := rel })
  else []

/-- The flat result list accumulated by the loops of `search_documents`
in `streamlit_app.py`, in encounter order, before sorting. -/
def searchScan (query : String) (framework : Option String) (st : Store) : List SearchResult :=
  let queryLower := pyLower query.data
  (frameworksToSearch framework).flatMap (fun fw =>
    match storeGet st fw with
    | none => []
    | some docs => docs.flatMap (fun doc => docResults fw doc queryLower))

/-- Stable descending insertion by a numeric key: the new element goes
in front of the first element whose key does not exceed its own.  This
is the behavior of Python `list.sort(key=..., reverse=True)`, which is
a stable sort. -/
def insertDescBy (key : α → Nat) (x : α) : List α → List α
  | [] => [x]
  | y :: ys => if key y ≤ key x then x :: y :: ys else y :: insertDescBy key x ys

/-- Stable descending sort by a numeric key, the model of
`results.sort(key=lambda x: x[...], reverse=True)`. -/
def sortDescBy (key : α → Nat) : List α → List α
  | [] => []
  | x :: xs => insertDescBy key x (sortDescBy key xs)

/-- Model of `search_documents` from `streamlit_app.py`: scan, sort by relevance
descending (stable), and return the first 20 results. -/
def search_documents (query : String) (framework : Option String) (st : Store) : List SearchResult :=
  (sortDescBy (fun r => r.relevance) (searchScan query framework st)).take 20

/-- One entry of the result list built by `search_documents` in
`Server/ukgc_regulatory_mcp_server.py`. -/
structure ServerResult where
  framework : String
  filename : String
  title : Json
  id : Json
  relevance_score : Nat
deriving Repr

/-- Python `a or b or ... or default` over `content.get(k)` lookups:
the first truthy field value, else the default. -/
def getOr (j : Json) (keys : List String) (dflt : Json) : Json :=
  match keys with
  | [] => dflt
  | k :: rest =>
    match j.getField k with
    | some v => if v.truthy then v else getOr j rest dflt
    | none => getOr j rest dflt

/-- The per-document body of the server `search_documents`: on a
substring match, one result with title and id taken from the first
truthy of several candidate fields. -/
def serverDocResults (fw : String) (doc : LoadedDoc) (queryLower : List Char) : List ServerResult :=
  let contentStr := pyLower (dumpsL doc.content)
  if queryLower <:+: contentStr then
    [{ framework := fw, filename := doc.filename,
       title := getOr doc.content ["control_title", "provision_title", "title"] (Json.str "Unknown"),
       id := getOr doc.content ["control_id", "provision_id", "rts_id"] (Json.str doc.filename),
       relevance_score := pyCount queryLower contentStr }]
  else []

/-- The flat result list accumulated by the server `search_documents`
before sorting (`if fw not in documents or not documents[fw]: continue`). -/
def serverSearchScan (query : String) (framework : Option String) (st : Store) : List ServerResult :=
  let queryLower := pyLower query.data
  (frameworksToSearch framework).flatMap (fun fw =>
    match storeGet st fw with
    | none => []
    | some docs =>
      if docs.isEmpty then []
      else docs.flatMap (fun doc => serverDocResults fw doc queryLower))

/-- Model of `search_documents` from `Server/ukgc_regulatory_mcp_server.py`:
scan, stable sort by `relevance_score` descending, return top 20. -/
def server_search_documents (query : String) (framework : Option String) (st : Store) : List ServerResult :=
  (sortDescBy (fun r => r.relevance_score) (serverSearchScan query framework st)).take 20

/-- Python whitespace for `str.strip`. -/
def isPyWs (c : Char) : Bool :=
  c = ' ' || c = '\t' || c = '\n' || c = '\r' || c = '\x0b' || c = '\x0c'

/-- Python `str.strip()`. -/
def stripWs (s : List Char) : List Char :=
  ((s.dropWhile isPyWs).reverse.dropWhile isPyWs).reverse

/-- Model of `framework.upper().replace(" ", "").strip()` from
`get_regulation_url`. -/
def normalizeFw (framework : String) : String :=
  String.mk (stripWs ((framework.data.map Char.toUpper).filter (fun c => c != ' ')))

/-- The first regex digit group searched by the url resolver: the
first maximal run of digits in `s`, if any. -/
def firstDigitRun (s : String) : Option String :=
  match s.data.dropWhile (fun c => !c.isDigit) with
  | [] => none
  | l => some (String.mk (l.takeWhile Char.isDigit))

/-- Python `str.zfill(2)` on a digit string. -/
def zfill2 (s : String) : String :=
  if s.length ≥ 2 then s else String.mk (List.replicate (2 - s.length) '0' ++ s.data)

/-- The body of the lookup loop in `get_regulation_url`: a key hits
when it is present in the mappings and its `url` value is truthy. -/
def urlOfKey (mappings : Json) (k : String) : Option Json :=
  match mappings.getField k with
  | some entry =>
    let u := entry.getD "url" Json.null
    if u.truthy then some u else none
  | none => none

/-- The lookup loop of `get_regulation_url`: return the url of the
first candidate key that hits, else nothing. -/
def tryLookups (mappings : Json) : List String → Option Json
  | [] => none
  | k :: rest =>
    match urlOfKey mappings k with
    | some u => some u
    | none => tryLookups mappings rest

/-- The ordered candidate key list built by `get_regulation_url` from
the normalized framework name and the regulation id. -/
def lookupAttempts (fwU : String) (regulation_id : String) : List String :=
  if fwU = "RTS" then
    match firstDigitRun regulation_id with
    | some num => ["RTS_" ++ zfill2 num, "RTS_" ++ num, regulation_id]
    | none => []
  else if fwU = "LCCP" then
    ["LCCP_" ++ regulation_id, regulation_id]
  else
    [fwU ++ "_" ++ regulation_id, regulation_id]

/-- Model of `get_regulation_url` from `streamlit_app.py`.  The session url
mapping is `none` when never loaded; a falsy mapping or a falsy
`mappings` field yields no url; otherwise the candidate keys are tried
in order. -/
def get_regulation_url (urlMapping : Option Json) (framework regulation_id : String) : Option Json :=
  match urlMapping with
  | none => none
  | some um =>
    if um.truthy then
      let mappings := um.getD "mappings" (Json.obj [])
      if mappings.truthy then
        tryLookups mappings (lookupAttempts (normalizeFw framework) regulation_id)
      else none
    else none

/-- The match test of the cross-reference scan:
`provision.get("lccp_id") == provision_id` (exact string equality; a
missing field or a non-string value never matches a string). -/
def provMatches (provision_id : String) (p : Json) : Bool :=
  match p.getField "lccp_id" with
  | some (Json.str s) => s = provision_id
  | _ => false

/-- The inner loop of `get_cross_references`: first provision of one
mapping group whose `lccp_id` equals the query (the `framework ==
"lccp"` conjunct of the source condition is threaded through). -/
def findInGroup (provision_id framework : String) : List Json → Option Json
  | [] => none
  | p :: rest =>
    if provMatches provision_id p && framework == "lccp" then some p
    else findInGroup provision_id framework rest

/-- The outer loop of `get_cross_references` over the mapping groups. -/
def findProvision (provision_id framework : String) : List Json → Option Json
  | [] => none
  | g :: rest =>
    match findInGroup provision_id framework (jarr (g.getD "mappings" (Json.arr []))) with
    | some p => some p
    | none => findProvision provision_id framework rest

/-- The distinct outcome for an index document that was never loaded. -/
def crossRefUnavailable : Json :=
  Json.obj [("error", Json.str "Cross-reference mapping not loaded")]

/-- The distinct outcome for an identifier missing from a loaded
mapping. -/
def crossRefNotFound (provision_id framework : String) : Json :=
  Json.obj [("error", Json.str ("Provision " ++ provision_id ++ " not found in " ++ framework))]

/-- The success outcome of `get_cross_references`. -/
def crossRefFound (provision_id : String) (p : Json) : Json :=
  Json.obj [("provision_id", Json.str provision_id),
            ("title", p.getD "lccp_title" Json.null),
            ("iso27001_controls", p.getD "supporting_iso27001_controls" (Json.arr [])),
            ("rts_chapters", p.getD "supporting_rts" (Json.arr []))]

/-- Model of `get_cross_references` from `Server/ukgc_regulatory_mcp_server.py`. -/
def get_cross_references (indexes : List (String × Json)) (provision_id framework : String) : Json :=
  match assocLookup indexes "cross-reference-mapping-lccp-iso27001-rts" with
  | none => crossRefUnavailable
  | some mapping =>
    match findProvision provision_id framework
        (jarr (mapping.getD "lccp_operating_licence_conditions_mappings" (Json.arr []))) with
    | some p => crossRefFound provision_id p
    | none => crossRefNotFound provision_id framework

/-- The input of the loader with the file system and JSON parser
abstracted away: each file is its name together with its parse outcome
(`none` models a `json.JSONDecodeError` or any per-file read error). -/
structure LoadInput where
  lccpFiles : List (String × Option Json)
  isoFiles : List (String × Option Json)
  rtsFiles : List (String × Option Json)
  indexFiles : List (String × Option Json)

/-- One framework directory of `load_documents`: well-formed files are
appended in order, a failing file adds a warning and is skipped. -/
def loadFiles : List (String × Option Json) → List LoadedDoc × List String
  | [] => ([], [])
  | (name, parsed) :: rest =>
    let r := loadFiles rest
    match parsed with
    | some j => (⟨name, j⟩ :: r.1, r.2)
    | none => (r.1, name :: r.2)

/-- The index directory of `load_documents`: named documents keyed by
filename stem, failing files warned and skipped. -/
def loadIndexFiles : List (String × Option Json) → List (String × Json) × List String
  | [] => ([], [])
  | (name, parsed) :: rest =>
    let r := loadIndexFiles rest
    match parsed with
    | some j => ((name, j) :: r.1, r.2)
    | none => (r.1, name :: r.2)

/-- Model of `load_documents` (both sources share this structure): load the
three framework directories and the index directory, collecting the
store and the list of files that produced warnings. -/
def load_documents (inp : LoadInput) : Store × List String :=
  let l := loadFiles inp.lccpFiles
  let i := loadFiles inp.isoFiles
  let r := loadFiles inp.rtsFiles
  let x := loadIndexFiles inp.indexFiles
  (⟨l.1, i.1, r.1, x.1⟩, l.2 ++ i.2 ++ r.2 ++ x.2)

/-- Placeholder result used only as the total-lookup default in
statements about result positions. -/
def noResult : SearchResult :=
  { framework := "", filename := "", title := Json.null, id := Json.null,
    content := Json.null, relevance := 0 }

/-- The section-to-condition path stated as the amended claim C3 words
it: one (identifier, title) entry per condition of the section, with
the source defaults. -/
def sectionConditionEntries (sec : Json) : List (Json × Json) :=
  match sec.getField "conditions" with
  | some (Json.arr conds) =>
    conds.map (fun c =>
      (c.getD "condition_id" (Json.str "Unknown"),
       c.getD "condition_title" (Json.str "Untitled")))
  | _ => []

/-- The amended claim C10, as a definition: with the empty query every
in-scope document matches, so a document contributes exactly its
extracted entries, scored like any match (the empty pattern counts
length + 1 occurrences). -/
def emptyQueryDocResults (fw : String) (doc : LoadedDoc) : List SearchResult :=
  let contentStr := pyLower (dumpsL doc.content)
  let rel := pyCount [] contentStr
  if fw = "iso27001" then
    let control := doc.content.getD "control" (Json.obj [])
    [{ framework := fw, filename := doc.filename,
       title := control.getD "control_title" (Json.str "Untitled"),
       id := control.getD "control_id" (Json.str "Unknown"),
       content := doc.content, relevance := rel }]
  else if fw = "lccp" then
    (extract_document_ids_from_lccp doc.content).map (fun p =>
      { framework := fw, filename := doc.filename,
        title := p.2, id := p.1, content := doc.content, relevance := rel })
  else
    (extract_document_ids_from_rts doc.content).map (fun p =>
      { framework := fw, filename := doc.filename,
        title := p.2, id := p.1, content := doc.content, relevance := rel })

/-- Concrete store for claim C2: an iso27001 control whose title holds
the query once, next to one whose body text holds it three times. -/
def c2store : Store :=
  ⟨[],
   [⟨"a.json", Json.obj [("control", Json.obj
      [("control_id", Json.str "T1"), ("control_title", Json.str "qq")])]⟩,
    ⟨"b.json", Json.obj [("control", Json.obj
      [("control_id", Json.str "T2"), ("control_title", Json.str "nope"),
       ("control_text", Json.str "qq qq qq")])]⟩],
   [], []⟩

/-- Concrete document for claim C3: conditions sit at the top level,
there is no sections key. -/
def c3doc : Json :=
  Json.obj [("conditions", Json.arr
    [Json.obj [("condition_id", Json.str "1.1"), ("condition_title", Json.str "T")]])]

/-- Concrete document for claim C4: one condition entry lacking both
identifier and title. -/
def c4doc : Json :=
  Json.obj [("sections", Json.arr [Json.obj [("conditions", Json.arr [Json.obj []])]])]

/-- Concrete cross-reference mapping document for claim C5. -/
def c5mapping : Json :=
  Json.obj [("lccp_operating_licence_conditions_mappings", Json.arr
    [Json.obj [("mappings", Json.arr
      [Json.obj [("lccp_id", Json.str "A.1"), ("lccp_title", Json.str "T"),
                 ("supporting_iso27001_controls", Json.arr [Json.str "A.5.1"]),
                 ("supporting_rts", Json.arr [Json.str "RTS 1"])]])]])]

/-- Loaded index list holding the claim C5 mapping document. -/
def c5indexes : List (String × Json) :=
  [("cross-reference-mapping-lccp-iso27001-rts", c5mapping)]

/-- Concrete url mapping for claim C6, the spec example. -/
def c6urlMapping : Json :=
  Json.obj [("mappings", Json.obj
    [("RTS_12", Json.obj [("url", Json.str "https://example.org/rts12")])])]

/-- Concrete licence-conditions document of the claim C7 example. -/
def c7doc : Json :=
  Json.obj [("sections", Json.arr [Json.obj [("conditions", Json.arr
    [Json.obj [("condition_id", Json.str "1.1.1"),
               ("condition_title", Json.str "Fund Protection"),
               ("condition_text", Json.str "Operators must protect customer funds...")]])]])]

/-- Store holding only the claim C7 document. -/
def c7store : Store := ⟨[⟨"doc1.json", c7doc⟩], [], [], []⟩

/-- The single result the claim C7 search returns. -/
def c7result : SearchResult :=
  { framework := "lccp", filename := "doc1.json",
    title := Json.str "Fund Protection", id := Json.str "1.1.1",
    content := c7doc, relevance := 1 }

/-- Twenty-one conditions for claim C8, every title holding the query
once; the twenty-first is the target entry. -/
def c8conds : List Json :=
  (List.range 21).map (fun i => Json.obj
    [("condition_id", Json.str ("C" ++ toString (i + 1))),
     ("condition_title", Json.str ("zq " ++ toString (i + 1)))])

/-- The single section of the claim C8 document. -/
def c8sec : Json := Json.obj [("conditions", Json.arr c8conds)]

/-- The claim C8 document: one sections entry carrying the twenty-one
tied conditions. -/
def c8doc : Json := Json.obj [("sections", Json.arr [c8sec])]

/-- Store for claim C8: a single lccp document carrying the
twenty-one tied conditions. -/
def c8store : Store := ⟨[⟨"big.json", c8doc⟩], [], [], []⟩

/-- The twenty-first condition of the claim C8 document. -/
def c8target : Json :=
  Json.obj [("condition_id", Json.str "C21"), ("condition_title", Json.str "zq 21")]

/-- Small store for the claim C8 witness: one lccp document whose
single condition title holds the query. -/
def c8smallStore : Store :=
  ⟨[⟨"one.json", Json.obj [("sections", Json.arr [Json.obj [("conditions", Json.arr
      [Json.obj [("condition_id", Json.str "X"),
                 ("condition_title", Json.str "alpha")]])]])]⟩], [], [], []⟩

/-- Store for claim C10: one loaded lccp document with no sections key,
hence nothing to extract. -/
def c10store : Store := ⟨[⟨"a.json", Json.obj [("x", Json.str "y")]⟩], [], [], []⟩

/-- Store for the claim C10 witness: one loaded iso27001 document. -/
def c10isoStore : Store :=
  ⟨[], [⟨"c.json", Json.obj [("control", Json.obj
     [("control_id", Json.str "A.1"), ("control_title", Json.str "Logging")])]⟩], [], []⟩

theorem mem_insertDescBy {key : α → Nat} {x a : α} {l : List α} :
    a ∈ insertDescBy key x l ↔ a = x ∨ a ∈ l := by
  induction l with
  | nil => simp [insertDescBy]
  | cons y ys ih =>
    by_cases h : key y ≤ key x
    · simp [insertDescBy, h]
    · simp [insertDescBy, h, ih]
      tauto

theorem mem_sortDescBy {key : α → Nat} {a : α} {l : List α} :
    a ∈ sortDescBy key l ↔ a ∈ l := by
  induction l with
  | nil => simp [sortDescBy]
  | cons x xs ih => simp [sortDescBy, mem_insertDescBy, ih]

theorem length_insertDescBy (key : α → Nat) (x : α) (l : List α) :
    (insertDescBy key x l).length = l.length + 1 := by
  induction l with
  | nil => rfl
  | cons y ys ih =>
    by_cases h : key y ≤ key x
    · simp [insertDescBy, h]
    · simp [insertDescBy, h, ih]

theorem length_sortDescBy (key : α → Nat) (l : List α) :
    (sortDescBy key l).length = l.length := by
  induction l with
  | nil => rfl
  | cons x xs ih => simp [sortDescBy, length_insertDescBy, ih]

theorem pairwise_insertDescBy {key : α → Nat} {x : α} {l : List α}
    (h : List.Pairwise (fun a b => key b ≤ key a) l) :
    List.Pairwise (fun a b => key b ≤ key a) (insertDescBy key x l) := by
  induction l with
  | nil => simp [insertDescBy]
  | cons y ys ih =>
    rcases List.pairwise_cons.mp h with ⟨hy, hys⟩
    by_cases hk : key y ≤ key x
    · simp only [insertDescBy, if_pos hk]
      refine List.pairwise_cons.mpr ⟨?_, h⟩
      intro z hz
      rcases List.mem_cons.mp hz with rfl | hz'
      · exact hk
      · exact le_trans (hy z hz') hk
    · simp only [insertDescBy, if_neg hk]
      refine List.pairwise_cons.mpr ⟨?_, ih hys⟩
      intro z hz
      rcases mem_insertDescBy.mp hz with rfl | hz'
      · omega
      · exact hy z hz'

theorem pairwise_sortDescBy (key : α → Nat) (l : List α) :
    List.Pairwise (fun a b => key b ≤ key a) (sortDescBy key l) := by
  induction l with
  | nil => simp [sortDescBy]
  | cons x xs ih => exact pairwise_insertDescBy ih

theorem filter_insertDescBy (key : α → Nat) (c : Nat) (x : α) (l : List α) :
    (insertDescBy key x l).filter (fun a => key a == c) =
      if key x = c then x :: l.filter (fun a => key a == c)
      else l.filter (fun a => key a == c) := by
  induction l with
  | nil =>
    by_cases hx : key x = c
    · simp only [insertDescBy, List.filter_cons, List.filter_nil, beq_iff_eq, if_pos hx]
    · simp only [insertDescBy, List.filter_cons, List.filter_nil, beq_iff_eq, if_neg hx]
  | cons y ys ih =>
    by_cases hk : key y ≤ key x
    · simp only [insertDescBy, if_pos hk, List.filter_cons, beq_iff_eq]
    · simp only [insertDescBy, if_neg hk, List.filter_cons, beq_iff_eq, ih]
      by_cases hx : key x = c
      · have hy : ¬ key y = c := by omega
        simp only [if_neg hy, if_pos hx]
      · by_cases hy : key y = c
        · simp only [if_pos hy, if_neg hx]
        · simp only [if_neg hy, if_neg hx]

theorem filter_sortDescBy (key : α → Nat) (c : Nat) (l : List α) :
    (sortDescBy key l).filter (fun a => key a == c) = l.filter (fun a => key a == c) := by
  induction l with
  | nil => rfl
  | cons x xs ih =>
    by_cases hx : key x = c
    · simp only [sortDescBy, filter_insertDescBy, List.filter_cons, beq_iff_eq,
        if_pos hx, ih]
    · simp only [sortDescBy, filter_insertDescBy, List.filter_cons, beq_iff_eq,
        if_neg hx, ih]

theorem filter_take_isPrefix (p : α → Bool) (n : Nat) (l : List α) :
    (l.take n).filter p <+: l.filter p :=
  ⟨(l.drop n).filter p, by rw [← List.filter_append, List.take_append_drop]⟩

/-- Claim C1: for every query string and every optional framework
filter, `search_documents` (both the streamlit and the server variant)
returns at most 20 results, the returned sequence is sorted in
descending order of relevance score, and ties between equal-score
results keep the order in which they were encountered during the scan:
for every score, the equal-score results form a prefix of the
equal-score results of the raw scan. -/
theorem C1_search_cap_sorted_stable (query : String) (framework : Option String) (st : Store) :
    ((search_documents query framework st).length ≤ 20 ∧
     List.Pairwise (fun a b => b.relevance ≤ a.relevance) (search_documents query framework st) ∧
     ∀ c : Nat,
       (search_documents query framework st).filter (fun r => r.relevance == c) <+:
         (searchScan query framework st).filter (fun r => r.relevance == c)) ∧
    ((server_search_documents query framework st).length ≤ 20 ∧
     List.Pairwise (fun a b => b.relevance_score ≤ a.relevance_score)
       (server_search_documents query framework st) ∧
     ∀ c : Nat,
       (server_search_documents query framework st).filter (fun r => r.relevance_score == c) <+:
         (serverSearchScan query framework st).filter (fun r => r.relevance_score == c)) := by
  constructor
  · refine ⟨?_, ?_, ?_⟩
    · rw [search_documents, List.length_take]
      exact min_le_left _ _
    · rw [search_documents]
      exact List.Pairwise.sublist (List.take_sublist _ _) (pairwise_sortDescBy _ _)
    · intro c
      rw [search_documents]
      have h1 := filter_take_isPrefix (fun r : SearchResult => r.relevance == c) 20
        (sortDescBy (fun r => r.relevance) (searchScan query framework st))
      rwa [filter_sortDescBy] at h1
  · refine ⟨?_, ?_, ?_⟩
    · rw [server_search_documents, List.length_take]
      exact min_le_left _ _
    · rw [server_search_documents]
      exact List.Pairwise.sublist (List.take_sublist _ _) (pairwise_sortDescBy _ _)
    · intro c
      rw [server_search_documents]
      have h1 := filter_take_isPrefix (fun r : ServerResult => r.relevance_score == c) 20
        (sortDescBy (fun r => r.relevance_score) (serverSearchScan query framework st))
      rwa [filter_sortDescBy] at h1

/-- Claim C2 (amended): relevance is the occurrence count of the query
in the whole lower-cased serialized document, with no preference for
the field the match occurs in; hence a result (in particular one whose
match occurs in the title field) is ranked before another exactly when
its count is strictly larger: a strictly larger relevance always
occupies a strictly earlier position in the returned sequence. -/
theorem C2_rank_by_count_only (query : String) (framework : Option String) (st : Store)
    (i j : Nat) (hi : i < (search_documents query framework st).length)
    (hj : j < (search_documents query framework st).length)
    (hrel : ((search_documents query framework st).getD i noResult).relevance <
            ((search_documents query framework st).getD j noResult).relevance) :
    j < i := by
  rw [List.getD_eq_getElem _ _ hi, List.getD_eq_getElem _ _ hj] at hrel
  have hp : List.Pairwise (fun a b => b.relevance ≤ a.relevance)
      (search_documents query framework st) := by
    rw [search_documents]
    exact List.Pairwise.sublist (List.take_sublist _ _) (pairwise_sortDescBy _ _)
  by_contra hji
  rcases Nat.lt_or_eq_of_le (Nat.le_of_not_lt hji) with hij | hij
  · have h2 := List.pairwise_iff_getElem.mp hp i j hi hj hij
    omega
  · subst hij
    exact absurd hrel (lt_irrefl _)

/-- Witness for claim C2: in the concrete two-document store the
result at position 1 scores strictly below the result at position 0,
and the theorem puts position 0 first. -/
theorem C2_rank_witness :
    1 < (search_documents "qq" none c2store).length ∧ (0 : Nat) < 1 := by
  have h1 : 1 < (search_documents "qq" none c2store).length := by decide
  have h0 : 0 < (search_documents "qq" none c2store).length := by decide
  exact ⟨h1, C2_rank_by_count_only "qq" none c2store 1 0 h1 h0 (by decide)⟩

/-- Counterexample to claim C2 as stated: in `c2store` the result
whose match occurs in the title field (id T1, title "qq") is ranked
strictly below the result whose matches occur only in body text (id
T2, title "nope"), because ranking follows the whole-document
occurrence count alone. -/
theorem C2_counterexample :
    (search_documents "qq" none c2store).map (fun r => (r.id, r.title, r.relevance)) =
      [(Json.str "T2", Json.str "nope", 3), (Json.str "T1", Json.str "qq", 1)] ∧
    pyLower "qq".data <:+: pyLower "qq".data ∧
    ¬ pyLower "qq".data <:+: pyLower "nope".data := by
  refine ⟨rfl, by decide, by decide⟩

/-- Claim C3 (amended): the extractor walks only the
section-to-condition path: a document with a sections sequence yields
exactly the accumulated per-section condition entries, and a document
without a sections key yields nothing — top-level condition sequences
and subsection-to-provision trees contribute no entries. -/
theorem C3_section_condition_path_only :
    (∀ content : Json, content.getField "sections" = none →
      extract_document_ids_from_lccp content = []) ∧
    (∀ (content : Json) (sections : List Json),
      content.getField "sections" = some (Json.arr sections) →
      extract_document_ids_from_lccp content = sections.flatMap sectionConditionEntries) := by
  constructor
  · intro content h
    simp only [extract_document_ids_from_lccp, h]
  · intro content sections h
    simp only [extract_document_ids_from_lccp, h]
    rfl

/-- Witness for claim C3: the no-sections document extracts to
nothing, and the claim C7 document extracts exactly its per-section
condition entries. -/
theorem C3_witness :
    extract_document_ids_from_lccp c3doc = [] ∧
    extract_document_ids_from_lccp c7doc = [(Json.str "1.1.1", Json.str "Fund Protection")] := by
  refine ⟨C3_section_condition_path_only.1 c3doc rfl, ?_⟩
  rw [C3_section_condition_path_only.2 c7doc
    [Json.obj [("conditions", Json.arr
      [Json.obj [("condition_id", Json.str "1.1.1"),
                 ("condition_title", Json.str "Fund Protection"),
                 ("condition_text", Json.str "Operators must protect customer funds...")]])]]
    rfl]
  rfl

/-- Counterexample to claim C3 as stated: `c3doc` carries its
conditions at the top level (no sections key), yet the extractor
contributes no entries for it. -/
theorem C3_counterexample :
    c3doc.getField "conditions" = some (Json.arr
      [Json.obj [("condition_id", Json.str "1.1"), ("condition_title", Json.str "T")]]) ∧
    c3doc.getField "sections" = none ∧
    extract_document_ids_from_lccp c3doc = [] :=
  ⟨rfl, rfl, rfl⟩

/-- Claim C4 (amended): a condition entry lacking both identifier and
title is not omitted: it contributes the placeholder entry
(Unknown, Untitled) — extraction is total, so it never raises, but it
does produce a placeholder rather than skipping the entry. -/
theorem C4_missing_fields_placeholder (content : Json) (sections : List Json)
    (sec : Json) (conds : List Json) (c : Json)
    (hs : content.getField "sections" = some (Json.arr sections))
    (hsec : sec ∈ sections)
    (hc : sec.getField "conditions" = some (Json.arr conds))
    (hcc : c ∈ conds)
    (hid : c.getField "condition_id" = none)
    (htitle : c.getField "condition_title" = none) :
    (Json.str "Unknown", Json.str "Untitled") ∈ extract_document_ids_from_lccp content := by
  simp only [extract_document_ids_from_lccp, hs]
  refine List.mem_flatMap.mpr ⟨sec, hsec, ?_⟩
  simp only [hc]
  refine List.mem_map.mpr ⟨c, hcc, ?_⟩
  simp [Json.getD, hid, htitle]

/-- Witness for claim C4: the concrete document whose only condition
entry is the empty object produces the placeholder entry. -/
theorem C4_witness :
    (Json.str "Unknown", Json.str "Untitled") ∈ extract_document_ids_from_lccp c4doc :=
  C4_missing_fields_placeholder c4doc
    [Json.obj [("conditions", Json.arr [Json.obj []])]]
    (Json.obj [("conditions", Json.arr [Json.obj []])])
    [Json.obj []] (Json.obj [])
    rfl (by simp) rfl (by simp) rfl rfl

/-- Counterexample to claim C4 as stated: the entry lacking both
identifier and title is not omitted from the output; the extractor
emits a placeholder pair for it. -/
theorem C4_counterexample :
    (Json.obj []).getField "condition_id" = none ∧
    (Json.obj []).getField "condition_title" = none ∧
    extract_document_ids_from_lccp c4doc = [(Json.str "Unknown", Json.str "Untitled")] :=
  ⟨rfl, rfl, rfl⟩

theorem provMatches_iff (pid : String) (p : Json) :
    provMatches pid p = true ↔ p.getField "lccp_id" = some (Json.str pid) := by
  unfold provMatches
  cases h : p.getField "lccp_id" with
  | none => simp
  | some v => cases v <;> simp

theorem findInGroup_eq_none_of_nomatch {pid fw : String} {ps : List Json}
    (h : ∀ p ∈ ps, provMatches pid p = false) :
    findInGroup pid fw ps = none := by
  induction ps with
  | nil => rfl
  | cons p rest ih =>
    have hp := h p (List.mem_cons_self p rest)
    simp only [findInGroup, hp, Bool.false_and, Bool.false_eq_true, if_false]
    exact ih (fun q hq => h q (List.mem_cons_of_mem p hq))

theorem findInGroup_eq_none_of_fw {pid fw : String} (hfw : fw ≠ "lccp") (ps : List Json) :
    findInGroup pid fw ps = none := by
  induction ps with
  | nil => rfl
  | cons p rest ih =>
    have : (fw == "lccp") = false := beq_eq_false_iff_ne.mpr hfw
    simp only [findInGroup, this, Bool.and_false, Bool.false_eq_true, if_false]
    exact ih

theorem findInGroup_isSome {pid : String} {ps : List Json} {p : Json}
    (hp : p ∈ ps) (hm : provMatches pid p = true) :
    ∃ q, findInGroup pid "lccp" ps = some q := by
  induction ps with
  | nil => cases hp
  | cons a rest ih =>
    by_cases ha : provMatches pid a = true
    · exact ⟨a, by simp [findInGroup, ha]⟩
    · rcases List.mem_cons.mp hp with rfl | hmem
      · exact absurd hm ha
      · rcases ih hmem with ⟨q, hq⟩
        refine ⟨q, ?_⟩
        simp only [findInGroup, Bool.eq_false_iff.mpr ha, Bool.false_and,
          Bool.false_eq_true, if_false]
        exact hq

theorem findInGroup_some_spec {pid fw : String} {ps : List Json} {p : Json}
    (h : findInGroup pid fw ps = some p) :
    p ∈ ps ∧ provMatches pid p = true ∧ fw = "lccp" := by
  induction ps with
  | nil => cases h
  | cons a rest ih =>
    by_cases hc : (provMatches pid a && fw == "lccp") = true
    · rw [findInGroup, if_pos hc] at h
      rcases (Bool.and_eq_true _ _).mp hc with ⟨h1, h2⟩
      injection h with h3
      subst h3
      exact ⟨List.mem_cons_self a rest, h1, by simpa using h2⟩
    · rw [findInGroup, if_neg hc] at h
      rcases ih h with ⟨hmem, hm, hfw⟩
      exact ⟨List.mem_cons_of_mem a hmem, hm, hfw⟩

theorem findProvision_eq_none_of_nomatch {pid fw : String} {gs : List Json}
    (h : ∀ g ∈ gs, ∀ p ∈ jarr (g.getD "mappings" (Json.arr [])), provMatches pid p = false) :
    findProvision pid fw gs = none := by
  induction gs with
  | nil => rfl
  | cons g rest ih =>
    have hg : findInGroup pid fw (jarr (g.getD "mappings" (Json.arr []))) = none :=
      findInGroup_eq_none_of_nomatch (h g (List.mem_cons_self g rest))
    simp only [findProvision, hg]
    exact ih (fun g2 hg2 => h g2 (List.mem_cons_of_mem g hg2))

theorem findProvision_eq_none_of_fw {pid fw : String} (hfw : fw ≠ "lccp") (gs : List Json) :
    findProvision pid fw gs = none := by
  induction gs with
  | nil => rfl
  | cons g rest ih =>
    simp only [findProvision, findInGroup_eq_none_of_fw hfw]
    exact ih

theorem findProvision_isSome {pid : String} {gs : List Json} {g p : Json}
    (hg : g ∈ gs) (hp : p ∈ jarr (g.getD "mappings" (Json.arr [])))
    (hm : provMatches pid p = true) :
    ∃ q, findProvision pid "lccp" gs = some q := by
  induction gs with
  | nil => cases hg
  | cons a rest ih =>
    cases hfind : findInGroup pid "lccp" (jarr (a.getD "mappings" (Json.arr []))) with
    | some q => exact ⟨q, by simp only [findProvision, hfind]⟩
    | none =>
      rcases List.mem_cons.mp hg with rfl | hmem
      · rcases findInGroup_isSome hp hm with ⟨q, hq⟩
        rw [hfind] at hq
        cases hq
      · rcases ih hmem with ⟨q, hq⟩
        exact ⟨q, by simp only [findProvision, hfind]; exact hq⟩

theorem findProvision_some_spec {pid fw : String} {gs : List Json} {p : Json}
    (h : findProvision pid fw gs = some p) :
    ∃ g ∈ gs, p ∈ jarr (g.getD "mappings" (Json.arr [])) ∧
      provMatches pid p = true ∧ fw = "lccp" := by
  induction gs with
  | nil => cases h
  | cons a rest ih =>
    cases hfind : findInGroup pid fw (jarr (a.getD "mappings" (Json.arr []))) with
    | some q =>
      rw [findProvision, hfind] at h
      cases h
      rcases findInGroup_some_spec hfind with ⟨hmem, hm, hfw⟩
      exact ⟨a, List.mem_cons_self a rest, hmem, hm, hfw⟩
    | none =>
      rw [findProvision, hfind] at h
      rcases ih h with ⟨g, hg, hrest⟩
      exact ⟨g, List.mem_cons_of_mem a hg, hrest⟩

/-- Claim C5: for every (framework, identifier) query,
`get_cross_references` returns the distinct mapping-unavailable
outcome when the index document was never loaded; the distinct
identifier-not-found outcome when the index is loaded but no mapping
entry matches (matching is exact string equality on the recorded
lccp_id, with no normalization, and queries against other frameworks
find nothing); and on an exact match the title and the recorded
supporting identifiers of the other two frameworks.  The two failure
outcomes are distinguishable. -/
theorem C5_cross_reference_outcomes (indexes : List (String × Json))
    (provision_id framework : String) :
    (assocLookup indexes "cross-reference-mapping-lccp-iso27001-rts" = none →
      get_cross_references indexes provision_id framework = crossRefUnavailable) ∧
    (∀ p : Json, provMatches provision_id p = true ↔
      p.getField "lccp_id" = some (Json.str provision_id)) ∧
    (∀ mapping : Json,
      assocLookup indexes "cross-reference-mapping-lccp-iso27001-rts" = some mapping →
      framework ≠ "lccp" →
      get_cross_references indexes provision_id framework =
        crossRefNotFound provision_id framework) ∧
    (∀ mapping : Json,
      assocLookup indexes "cross-reference-mapping-lccp-iso27001-rts" = some mapping →
      (∀ g ∈ jarr (mapping.getD "lccp_operating_licence_conditions_mappings" (Json.arr [])),
        ∀ p ∈ jarr (g.getD "mappings" (Json.arr [])),
          provMatches provision_id p = false) →
      get_cross_references indexes provision_id framework =
        crossRefNotFound provision_id framework) ∧
    (∀ mapping g p : Json,
      assocLookup indexes "cross-reference-mapping-lccp-iso27001-rts" = some mapping →
      framework = "lccp" →
      g ∈ jarr (mapping.getD "lccp_operating_licence_conditions_mappings" (Json.arr [])) →
      p ∈ jarr (g.getD "mappings" (Json.arr [])) →
      provMatches provision_id p = true →
      ∃ q : Json, q.getField "lccp_id" = some (Json.str provision_id) ∧
        get_cross_references indexes provision_id framework =
          crossRefFound provision_id q) ∧
    crossRefUnavailable ≠ crossRefNotFound provision_id framework := by
  refine ⟨?_, provMatches_iff provision_id, ?_, ?_, ?_, ?_⟩
  · intro h
    simp only [get_cross_references, h]
  · intro mapping hm hfw
    simp only [get_cross_references, hm, findProvision_eq_none_of_fw hfw]
  · intro mapping hm hno
    simp only [get_cross_references, hm, findProvision_eq_none_of_nomatch hno]
  · intro mapping g p hm hfw hg hp hmatch
    subst hfw
    rcases findProvision_isSome hg hp hmatch with ⟨q, hq⟩
    rcases findProvision_some_spec hq with ⟨g2, _, _, hqm, _⟩
    refine ⟨q, (provMatches_iff provision_id q).mp hqm, ?_⟩
    simp only [get_cross_references, hm, hq]
  · intro h
    have h2 : Json.str "Cross-reference mapping not loaded" =
        Json.str ("Provision " ++ provision_id ++ " not found in " ++ framework) := by
      have h3 := congrArg (fun j => j.getField "error") h
      simpa [crossRefUnavailable, crossRefNotFound, Json.getField, assocLookup] using h3
    have h4 : ("Cross-reference mapping not loaded").data.head? =
        ("Provision " ++ provision_id ++ " not found in " ++ framework).data.head? := by
      injection h2 with h5
      exact congrArg (fun s => s.data.head?) h5
    have h5 : ("Provision " ++ provision_id ++ " not found in " ++ framework).data.head? =
        some 'P' := rfl
    rw [h5] at h4
    have h6 : ("Cross-reference mapping not loaded").data.head? = some 'C' := rfl
    rw [h6] at h4
    injection h4 with h7
    exact absurd h7 (by decide)

/-- Witness for claim C5: with no index loaded the resolver reports
mapping-unavailable; with the concrete mapping loaded, the
case-different identifier a.1 is not found (exact matching) while A.1
returns the recorded title and supporting identifiers; the two failure
outcomes differ. -/
theorem C5_witness :
    get_cross_references [] "1.1.1" "lccp" = crossRefUnavailable ∧
    get_cross_references c5indexes "a.1" "lccp" = crossRefNotFound "a.1" "lccp" ∧
    crossRefUnavailable ≠ crossRefNotFound "1.1.1" "lccp" ∧
    (∃ q : Json, q.getField "lccp_id" = some (Json.str "A.1") ∧
      get_cross_references c5indexes "A.1" "lccp" = crossRefFound "A.1" q) ∧
    get_cross_references c5indexes "A.1" "lccp" =
      Json.obj [("provision_id", Json.str "A.1"),
                ("title", Json.str "T"),
                ("iso27001_controls", Json.arr [Json.str "A.5.1"]),
                ("rts_chapters", Json.arr [Json.str "RTS 1"])] := by
  refine ⟨(C5_cross_reference_outcomes [] "1.1.1" "lccp").1 rfl, ?_, ?_, ?_, rfl⟩
  · exact (C5_cross_reference_outcomes c5indexes "a.1" "lccp").2.2.2.1 c5mapping rfl
      (by decide)
  · exact (C5_cross_reference_outcomes [] "1.1.1" "lccp").2.2.2.2.2
  · exact (C5_cross_reference_outcomes c5indexes "A.1" "lccp").2.2.2.2.1 c5mapping
      (Json.obj [("mappings", Json.arr
        [Json.obj [("lccp_id", Json.str "A.1"), ("lccp_title", Json.str "T"),
                   ("supporting_iso27001_controls", Json.arr [Json.str "A.5.1"]),
                   ("supporting_rts", Json.arr [Json.str "RTS 1"])]])])
      (Json.obj [("lccp_id", Json.str "A.1"), ("lccp_title", Json.str "T"),
                 ("supporting_iso27001_controls", Json.arr [Json.str "A.5.1"]),
                 ("supporting_rts", Json.arr [Json.str "RTS 1"])])
      rfl rfl
      (by simp [c5mapping, Json.getD, Json.getField, assocLookup, jarr])
      (by simp [Json.getD, Json.getField, assocLookup, jarr]) (by decide)

theorem urlOfKey_falsy {m : Json} (h : m.truthy = false) (k : String) :
    urlOfKey m k = none := by
  cases m with
  | obj fs =>
    have : fs = [] := by
      simpa [Json.truthy, List.isEmpty_iff] using h
    subst this
    rfl
  | null => rfl
  | bool b => rfl
  | num n => rfl
  | str s => rfl
  | arr xs => rfl

theorem mappings_of_falsy {um : Json} (h : um.truthy = false) :
    um.getD "mappings" (Json.obj []) = Json.obj [] := by
  cases um with
  | obj fs =>
    have : fs = [] := by
      simpa [Json.truthy, List.isEmpty_iff] using h
    subst this
    rfl
  | null => rfl
  | bool b => rfl
  | num n => rfl
  | str s => rfl
  | arr xs => rfl

/-- Claim C6: for the technical-standards framework the URL resolver
extracts the first run of digits from the identifier and tries, in
order, the zero-padded prefixed key, the unpadded prefixed key, then
the raw identifier, returning the URL of the first candidate that
hits the mapping. -/
theorem C6_rts_url_resolution (um : Json) (framework regulation_id num : String)
    (hfw : normalizeFw framework = "RTS")
    (hnum : firstDigitRun regulation_id = some num) :
    (∀ u : Json,
      urlOfKey (um.getD "mappings" (Json.obj [])) ("RTS_" ++ zfill2 num) = some u →
      get_regulation_url (some um) framework regulation_id = some u) ∧
    (urlOfKey (um.getD "mappings" (Json.obj [])) ("RTS_" ++ zfill2 num) = none →
      ∀ u : Json,
      urlOfKey (um.getD "mappings" (Json.obj [])) ("RTS_" ++ num) = some u →
      get_regulation_url (some um) framework regulation_id = some u) ∧
    (urlOfKey (um.getD "mappings" (Json.obj [])) ("RTS_" ++ zfill2 num) = none →
      urlOfKey (um.getD "mappings" (Json.obj [])) ("RTS_" ++ num) = none →
      get_regulation_url (some um) framework regulation_id =
        urlOfKey (um.getD "mappings" (Json.obj [])) regulation_id) := by
  have hmaster : get_regulation_url (some um) framework regulation_id =
      tryLookups (um.getD "mappings" (Json.obj []))
        ["RTS_" ++ zfill2 num, "RTS_" ++ num, regulation_id] := by
    cases hum : um.truthy with
    | false =>
      have hm := mappings_of_falsy hum
      simp only [get_regulation_url, hum, Bool.false_eq_true, if_false, hm]
      simp [tryLookups, urlOfKey, Json.getField, assocLookup]
    | true =>
      cases hmt : (um.getD "mappings" (Json.obj [])).truthy with
      | false =>
        simp only [get_regulation_url, hum, if_true, hmt, Bool.false_eq_true, if_false]
        simp [tryLookups, urlOfKey_falsy hmt]
      | true =>
        simp only [get_regulation_url, hum, if_true, hmt, hfw, lookupAttempts,
          if_pos rfl, hnum]
  refine ⟨?_, ?_, ?_⟩
  · intro u h1
    rw [hmaster]
    simp [tryLookups, h1]
  · intro h1 u h2
    rw [hmaster]
    simp [tryLookups, h1, h2]
  · intro h1 h2
    rw [hmaster]
    cases h3 : urlOfKey (um.getD "mappings" (Json.obj [])) regulation_id <;>
      simp [tryLookups, h1, h2, h3]

/-- Witness for claim C6: the spec example.  The mapping holds the
single key RTS_12 and resolving ("RTS", "RTS Aim 12") returns its
url. -/
theorem C6_witness :
    firstDigitRun "RTS Aim 12" = some "12" ∧
    get_regulation_url (some c6urlMapping) "RTS" "RTS Aim 12" =
      some (Json.str "https://example.org/rts12") := by
  refine ⟨rfl, ?_⟩
  exact (C6_rts_url_resolution c6urlMapping "RTS" "RTS Aim 12" "12" rfl rfl).1
    (Json.str "https://example.org/rts12") rfl

/-- Claim C7: the spec example.  Loading the licence-conditions
document whose condition is 1.1.1 "Fund Protection" and searching
"fund protection" returns exactly one result whose id is 1.1.1, whose
framework is lccp, and whose relevance score is at least 1. -/
theorem C7_fund_protection_example :
    search_documents "fund protection" none c7store = [c7result] ∧
    c7result.id = Json.str "1.1.1" ∧
    c7result.framework = "lccp" ∧
    1 ≤ c7result.relevance :=
  ⟨rfl, rfl, rfl, by decide⟩

theorem loadFiles_spec (files : List (String × Option Json)) :
    (loadFiles files).1 =
      files.filterMap (fun f => f.2.map (fun j => LoadedDoc.mk f.1 j)) ∧
    (loadFiles files).2 =
      files.filterMap (fun f => match f.2 with | none => some f.1 | some _ => none) := by
  induction files with
  | nil => exact ⟨rfl, rfl⟩
  | cons f rest ih =>
    obtain ⟨n, p⟩ := f
    cases p <;> simp [loadFiles, ih.1, ih.2]

theorem loadIndexFiles_spec (files : List (String × Option Json)) :
    (loadIndexFiles files).1 =
      files.filterMap (fun f => f.2.map (fun j => (f.1, j))) ∧
    (loadIndexFiles files).2 =
      files.filterMap (fun f => match f.2 with | none => some f.1 | some _ => none) := by
  induction files with
  | nil => exact ⟨rfl, rfl⟩
  | cons f rest ih =>
    obtain ⟨n, p⟩ := f
    cases p <;> simp [loadIndexFiles, ih.1, ih.2]

/-- Claim C9: for every collection of input files, the loader keeps
exactly the well-formed files of every framework, in order: a file
that fails to parse contributes a warning and is excluded, and every
other file — in the same framework or another — still loads; the
loader is a total function, so a malformed file never aborts the
load. -/
theorem C9_loader_isolation (inp : LoadInput) :
    (load_documents inp).1.lccp =
      inp.lccpFiles.filterMap (fun f => f.2.map (fun j => LoadedDoc.mk f.1 j)) ∧
    (load_documents inp).1.iso27001 =
      inp.isoFiles.filterMap (fun f => f.2.map (fun j => LoadedDoc.mk f.1 j)) ∧
    (load_documents inp).1.rts =
      inp.rtsFiles.filterMap (fun f => f.2.map (fun j => LoadedDoc.mk f.1 j)) ∧
    (load_documents inp).1.indexes =
      inp.indexFiles.filterMap (fun f => f.2.map (fun j => (f.1, j))) ∧
    (load_documents inp).2 =
      (inp.lccpFiles ++ inp.isoFiles ++ inp.rtsFiles ++ inp.indexFiles).filterMap
        (fun f => match f.2 with | none => some f.1 | some _ => none) := by
  refine ⟨?_, ?_, ?_, ?_, ?_⟩
  · exact (loadFiles_spec inp.lccpFiles).1
  · exact (loadFiles_spec inp.isoFiles).1
  · exact (loadFiles_spec inp.rtsFiles).1
  · exact (loadIndexFiles_spec inp.indexFiles).1
  · show (loadFiles inp.lccpFiles).2 ++ (loadFiles inp.isoFiles).2 ++
      (loadFiles inp.rtsFiles).2 ++ (loadIndexFiles inp.indexFiles).2 = _
    rw [(loadFiles_spec inp.lccpFiles).2, (loadFiles_spec inp.isoFiles).2,
      (loadFiles_spec inp.rtsFiles).2, (loadIndexFiles_spec inp.indexFiles).2,
      List.filterMap_append, List.filterMap_append, List.filterMap_append]

/-- Claim C10 (amended): the empty query is not rejected — it matches
every in-scope document (the empty string is a substring of every
serialization), so every in-scope document contributes exactly its
extracted entries and the call is capped at 20 as always.  The call
returns zero results only when no in-scope document yields an
extracted entry (for instance an lccp document with no sections); in
particular it returns at least one result whenever an iso27001
document is loaded, since a matching iso27001 document always yields
exactly one entry. -/
theorem C10_empty_query_matches_all :
    (∀ (fw : String) (doc : LoadedDoc), docResults fw doc [] = emptyQueryDocResults fw doc) ∧
    (∀ st : Store, st.iso27001 ≠ [] → search_documents "" none st ≠ []) := by
  constructor
  · intro fw doc
    unfold docResults emptyQueryDocResults
    rw [if_pos List.nil_infix]
  · intro st hne
    obtain ⟨d, rest, hd⟩ : ∃ d rest, st.iso27001 = d :: rest := by
      cases h : st.iso27001 with
      | nil => exact absurd h hne
      | cons d rest => exact ⟨d, rest, rfl⟩
    have hr : docResults "iso27001" d [] ≠ [] := by
      unfold docResults
      rw [if_pos List.nil_infix]
      simp
    obtain ⟨r, hri⟩ := List.exists_mem_of_ne_nil _ hr
    have hmem : r ∈ searchScan "" none st := by
      unfold searchScan
      refine List.mem_flatMap.mpr ⟨"iso27001", by simp [frameworksToSearch], ?_⟩
      show r ∈ st.iso27001.flatMap (fun doc => docResults "iso27001" doc (pyLower "".data))
      refine List.mem_flatMap.mpr ⟨d, by rw [hd]; exact List.mem_cons_self d rest, ?_⟩
      exact hri
    intro hcontra
    have h1 : (search_documents "" none st).length = 0 := by rw [hcontra]; rfl
    rw [search_documents, List.length_take, length_sortDescBy] at h1
    have h2 : 0 < (searchScan "" none st).length :=
      List.length_pos.mpr (List.ne_nil_of_mem hmem)
    rcases Nat.min_eq_zero_iff.mp h1 with h3 | h3
    · exact absurd h3 (by decide)
    · omega

/-- Witness for claim C10: the store holding one iso27001 document
yields a nonempty result list for the empty query. -/
theorem C10_witness : search_documents "" none c10isoStore ≠ [] :=
  C10_empty_query_matches_all.2 c10isoStore (List.cons_ne_nil _ _)

/-- Counterexample to claim C10 as stated: documents are loaded (the
lccp list is nonempty), yet the empty query returns zero results,
because the single loaded document has no sections and so yields no
extracted entries. -/
theorem C10_counterexample :
    c10store.lccp ≠ [] ∧ search_documents "" none c10store = [] :=
  ⟨List.cons_ne_nil _ _, rfl⟩

theorem escapeL_append (a b : List Char) :
    escapeL (a ++ b) = escapeL a ++ escapeL b := by
  induction a with
  | nil => rfl
  | cons c rest ih => simp [escapeL, ih]

theorem escapeL_of_clean {q : List Char}
    (h : ∀ c ∈ q, c ≠ '"' ∧ c ≠ '\\' ∧ 32 ≤ c.toNat ∧ c.toNat ≤ 126) :
    escapeL q = q := by
  induction q with
  | nil => rfl
  | cons c rest ih =>
    have hc := h c (List.mem_cons_self c rest)
    have hrest := ih (fun d hd => h d (List.mem_cons_of_mem c hd))
    simp only [escapeL, escChar, if_neg hc.1, if_neg hc.2.1, if_pos hc.2.2, hrest]
    rfl

theorem assocLookup_mem {fs : List (String × Json)} {k : String} {v : Json}
    (h : assocLookup fs k = some v) : (k, v) ∈ fs := by
  induction fs with
  | nil => cases h
  | cons f rest ih =>
    obtain ⟨k2, v2⟩ := f
    by_cases hk : k2 = k
    · rw [assocLookup, if_pos hk] at h
      injection h with h2
      subst hk
      subst h2
      exact List.mem_cons_self _ _
    · rw [assocLookup, if_neg hk] at h
      exact List.mem_cons_of_mem _ (ih h)

theorem infix_wrap {l m : List Char} (c d : Char) (h : l <:+: m) :
    l <:+: c :: m ++ [d] := by
  rcases h with ⟨s, t, rfl⟩
  exact ⟨c :: s, t ++ [d], by simp⟩

theorem infix_dumpsArrL {x : Json} {xs : List Json} (h : x ∈ xs) :
    dumpsL x <:+: dumpsArrL xs := by
  induction xs with
  | nil => cases h
  | cons y ys ih =>
    rcases List.mem_cons.mp h with rfl | hmem
    · cases ys with
      | nil => exact List.infix_rfl
      | cons z zs =>
        exact ⟨[], ',' :: ' ' :: dumpsArrL (z :: zs), by simp [dumpsArrL]⟩
    · cases ys with
      | nil => cases hmem
      | cons z zs =>
        refine (ih hmem).trans ⟨dumpsL y ++ [',', ' '], [], ?_⟩
        simp [dumpsArrL]

theorem infix_dumpsObjL {k : String} {v : Json} {fs : List (String × Json)}
    (h : (k, v) ∈ fs) : dumpsL v <:+: dumpsObjL fs := by
  induction fs with
  | nil => cases h
  | cons f rest ih =>
    obtain ⟨k2, v2⟩ := f
    rcases List.mem_cons.mp h with heq | hmem
    · injection heq with h1 h2
      subst h1
      subst h2
      cases rest with
      | nil =>
        exact ⟨'"' :: escapeL k.data ++ '"' :: ':' :: ' ' :: [], [], by simp [dumpsObjL]⟩
      | cons p ps =>
        refine ⟨'"' :: escapeL k.data ++ '"' :: ':' :: ' ' :: [],
          ',' :: ' ' :: dumpsObjL (p :: ps), ?_⟩
        simp [dumpsObjL]
    · cases rest with
      | nil => cases hmem
      | cons p ps =>
        refine (ih hmem).trans
          ⟨('"' :: escapeL k2.data ++ '"' :: ':' :: ' ' :: dumpsL v2) ++ [',', ' '], [], ?_⟩
        simp [dumpsObjL]

theorem infix_dumpsL_arr {x : Json} {xs : List Json} (h : x ∈ xs) :
    dumpsL x <:+: dumpsL (Json.arr xs) :=
  infix_wrap '[' ']' (infix_dumpsArrL h)

theorem infix_dumpsL_getField {j v : Json} {k : String}
    (h : j.getField k = some v) : dumpsL v <:+: dumpsL j := by
  cases j with
  | obj fs =>
    have hmem : (k, v) ∈ fs := assocLookup_mem h
    exact infix_wrap '\x7b' '\x7d' (infix_dumpsObjL hmem)
  | null => cases h
  | bool b => cases h
  | num n => cases h
  | str s => cases h
  | arr xs => cases h

theorem infix_dumpsL_str {q : List Char} {title : String}
    (hclean : ∀ c ∈ q, c ≠ '"' ∧ c ≠ '\\' ∧ 32 ≤ c.toNat ∧ c.toNat ≤ 126)
    (hsub : q <:+: title.data) :
    q <:+: dumpsL (Json.str title) := by
  rcases hsub with ⟨a, b, hab⟩
  have h1 : escapeL title.data = escapeL a ++ q ++ escapeL b := by
    rw [← hab, escapeL_append, escapeL_append, escapeL_of_clean hclean]
  have h2 : q <:+: escapeL title.data := ⟨escapeL a, escapeL b, by rw [h1]⟩
  exact infix_wrap '"' '"' h2

/-- Claim C8 (amended): if a loaded lccp document carries a condition
whose condition_title field contains the query — a query made of the
characters the serializer leaves unescaped, that is printable ASCII
other than quote and backslash — and whose condition_id is X, and no
framework filter excludes lccp, then a result with identifier X
appears in the scanned result sequence; it appears in the returned
sequence whenever the scan yields at most 20 results in total — the
top-20 truncation may otherwise push it out. -/
theorem C8_title_match_roundtrip (st : Store) (q : String) (d : LoadedDoc)
    (sections : List Json) (sec : Json) (conds : List Json) (c : Json) (X title : String)
    (hd : d ∈ st.lccp)
    (hs : d.content.getField "sections" = some (Json.arr sections))
    (hsec : sec ∈ sections)
    (hc : sec.getField "conditions" = some (Json.arr conds))
    (hcc : c ∈ conds)
    (hid : c.getField "condition_id" = some (Json.str X))
    (htitle : c.getField "condition_title" = some (Json.str title))
    (hsub : q.data <:+: title.data)
    (hclean : ∀ ch ∈ q.data, ch ≠ '"' ∧ ch ≠ '\\' ∧ 32 ≤ ch.toNat ∧ ch.toNat ≤ 126) :
    (∃ r ∈ searchScan q none st, r.id = Json.str X) ∧
    ((searchScan q none st).length ≤ 20 →
      ∃ r ∈ search_documents q none st, r.id = Json.str X) := by
  have h1 : q.data <:+: dumpsL d.content :=
    ((((infix_dumpsL_str hclean hsub).trans (infix_dumpsL_getField htitle)).trans
      (infix_dumpsL_arr hcc)).trans (infix_dumpsL_getField hc)).trans
      ((infix_dumpsL_arr hsec).trans (infix_dumpsL_getField hs))
  have hgate : pyLower q.data <:+: pyLower (dumpsL d.content) :=
    List.IsInfix.map Char.toLower h1
  have hex : (Json.str X, Json.str title) ∈ extract_document_ids_from_lccp d.content := by
    simp only [extract_document_ids_from_lccp, hs]
    refine List.mem_flatMap.mpr ⟨sec, hsec, ?_⟩
    simp only [hc]
    refine List.mem_map.mpr ⟨c, hcc, ?_⟩
    simp [Json.getD, hid, htitle]
  have hdoc : ∃ r ∈ docResults "lccp" d (pyLower q.data), r.id = Json.str X := by
    simp only [docResults]
    rw [if_pos hgate]
    simp only [if_true, if_false]
    exact ⟨_, List.mem_map.mpr ⟨(Json.str X, Json.str title), hex, rfl⟩, rfl⟩
  obtain ⟨r, hrmem, hrid⟩ := hdoc
  have hscan : r ∈ searchScan q none st := by
    unfold searchScan
    refine List.mem_flatMap.mpr ⟨"lccp", by simp [frameworksToSearch], ?_⟩
    show r ∈ st.lccp.flatMap (fun doc => docResults "lccp" doc (pyLower q.data))
    exact List.mem_flatMap.mpr ⟨d, hd, hrmem⟩
  refine ⟨⟨r, hscan, hrid⟩, ?_⟩
  intro hlen
  have hall : (sortDescBy (fun r => r.relevance) (searchScan q none st)).take 20 =
      sortDescBy (fun r => r.relevance) (searchScan q none st) :=
    List.take_of_length_le (by rw [length_sortDescBy]; exact hlen)
  refine ⟨r, ?_, hrid⟩
  rw [search_documents, hall]
  exact mem_sortDescBy.mpr hscan

/-- Witness for claim C8: in the one-condition store the query alp is
contained in the title alpha and the single result with id X is
returned (the scan yields one result, well under the cap). -/
theorem C8_witness :
    (∃ r ∈ searchScan "alp" none c8smallStore, r.id = Json.str "X") ∧
    (∃ r ∈ search_documents "alp" none c8smallStore, r.id = Json.str "X") := by
  have h := C8_title_match_roundtrip c8smallStore "alp"
    ⟨"one.json", Json.obj [("sections", Json.arr [Json.obj [("conditions", Json.arr
      [Json.obj [("condition_id", Json.str "X"),
                 ("condition_title", Json.str "alpha")]])]])]⟩
    [Json.obj [("conditions", Json.arr
      [Json.obj [("condition_id", Json.str "X"), ("condition_title", Json.str "alpha")]])]]
    (Json.obj [("conditions", Json.arr
      [Json.obj [("condition_id", Json.str "X"), ("condition_title", Json.str "alpha")]])])
    [Json.obj [("condition_id", Json.str "X"), ("condition_title", Json.str "alpha")]]
    (Json.obj [("condition_id", Json.str "X"), ("condition_title", Json.str "alpha")])
    "X" "alpha"
    (List.mem_cons_self _ _) rfl (List.mem_cons_self _ _) rfl (List.mem_cons_self _ _)
    rfl rfl (by decide) (by decide)
  exact ⟨h.1, h.2 (by decide)⟩

/-- Counterexample to claim C8 as stated: in the twenty-one-condition
store every condition title contains the query zq, in particular the
twenty-first condition with identifier C21, yet no result with
identifier C21 is returned: the twenty-one results tie at the same
score and the stable top-20 truncation drops the last one. -/
theorem C8_counterexample :
    c8doc.getField "sections" = some (Json.arr [c8sec]) ∧
    c8sec.getField "conditions" = some (Json.arr c8conds) ∧
    c8target ∈ c8conds ∧
    c8target.getField "condition_id" = some (Json.str "C21") ∧
    c8target.getField "condition_title" = some (Json.str "zq 21") ∧
    "zq".data <:+: "zq 21".data ∧
    (search_documents "zq" none c8store).map (fun r => pyStr r.id) =
      (List.range 20).map (fun i => "C" ++ toString (i + 1)) ∧
    ∀ r ∈ search_documents "zq" none c8store, r.id ≠ Json.str "C21" := by
  have hget : c8conds.get ⟨20, by decide⟩ = c8target := rfl
  have hmem : c8target ∈ c8conds := by
    rw [← hget]
    exact List.get_mem c8conds 20 (by decide)
  have hmap : (search_documents "zq" none c8store).map (fun r => pyStr r.id) =
      (List.range 20).map (fun i => "C" ++ toString (i + 1)) := rfl
  refine ⟨rfl, rfl, hmem, rfl, rfl, by decide, hmap, ?_⟩
  intro r hr hcontra
  have h2 : "C21" ∈ (search_documents "zq" none c8store).map (fun r => pyStr r.id) :=
    List.mem_map.mpr ⟨r, hr, by rw [hcontra]; rfl⟩
  rw [hmap] at h2
  exact absurd h2 (by decide)
